import Mathlib

/-!
# OpenAPI v3 export of a ytt data-values schema

A shallow embedding of `pkg/schema/openapi.go`: the walk `calculateProperties`
over the schema types, `openAPITypeFor`, and the fixed envelope built by
`AsDocument`.

Conventions of the embedding.

* A Go `interface{}` holding a YAML literal or a `yamlmeta` node is a
  `yamlmeta.Value`.  A `*yamlmeta.Map` is the list of its `MapItem`s, each item a
  pair `(Key, Value)`, in slice order.
* The argument `schemaVal interface{}` of `calculateProperties` is a
  `schema.SchemaVal`: one constructor per pointer type the type switch names,
  one for each remaining schema type, and `other` for every other Go value.
* A Go `panic` is the `error` side of `Except`, tagged with the place that
  raised it.  Pointers are taken to be non-nil.
* `GetValueType()` and `GetDefaultValue()` are read as the fields of the node
  they are called on; the generator only ever reads them.
-/

set_option autoImplicit false

namespace yamlmeta

/-- A value held behind `interface{}` in a `yamlmeta` tree.  A `float64` is kept
as its IEEE-754 bit pattern: the generator passes literals through and never
computes with them. -/
inductive Value where
  | nil
  | bool (b : Bool)
  | int (i : Int)
  | float64 (bits : Nat)
  | string (s : String)
  | array (Items : List Value)
  | map (Items : List (Value × Value))
  deriving Repr

mutual
/-- Structural equality test on values. -/
def Value.beq : Value → Value → Bool
  | .nil, .nil => true
  | .bool a, .bool b => a == b
  | .int a, .int b => a == b
  | .float64 a, .float64 b => a == b
  | .string a, .string b => a == b
  | .array a, .array b => Value.beqList a b
  | .map a, .map b => Value.beqItems a b
  | _, _ => false
/-- Structural equality test on sequences of values. -/
def Value.beqList : List Value → List Value → Bool
  | [], [] => true
  | a :: as, b :: bs => Value.beq a b && Value.beqList as bs
  | _, _ => false
/-- Structural equality test on sequences of map items. -/
def Value.beqItems : List (Value × Value) → List (Value × Value) → Bool
  | [], [] => true
  | (k, v) :: as, (k2, v2) :: bs => Value.beq k k2 && Value.beq v v2 && Value.beqItems as bs
  | _, _ => false
end

mutual
theorem Value.beq_sound : ∀ (a b : Value), Value.beq a b = true → a = b
  | .nil, b, h => by cases b <;> simp_all [Value.beq]
  | .bool a, b, h => by cases b <;> simp_all [Value.beq]
  | .int a, b, h => by cases b <;> simp_all [Value.beq]
  | .float64 a, b, h => by cases b <;> simp_all [Value.beq]
  | .string a, b, h => by cases b <;> simp_all [Value.beq]
  | .array a, b, h => by
      cases b <;> simp [Value.beq] at h
      rw [Value.beqList_sound _ _ h]
  | .map a, b, h => by
      cases b <;> simp [Value.beq] at h
      rw [Value.beqItems_sound _ _ h]
theorem Value.beqList_sound : ∀ (a b : List Value), Value.beqList a b = true → a = b
  | [], b, h => by cases b <;> simp_all [Value.beqList]
  | a :: as, b, h => by
      cases b with
      | nil => simp [Value.beqList] at h
      | cons b bs =>
        simp [Value.beqList] at h
        rw [Value.beq_sound _ _ h.1, Value.beqList_sound _ _ h.2]
theorem Value.beqItems_sound :
    ∀ (a b : List (Value × Value)), Value.beqItems a b = true → a = b
  | [], b, h => by cases b <;> simp_all [Value.beqItems]
  | (k, v) :: as, b, h => by
      cases b with
      | nil => simp [Value.beqItems] at h
      | cons b bs =>
        obtain ⟨k2, v2⟩ := b
        simp [Value.beqItems] at h
        rw [Value.beq_sound _ _ h.1.1, Value.beq_sound _ _ h.1.2,
          Value.beqItems_sound _ _ h.2]
end

mutual
theorem Value.beq_self : ∀ (a : Value), Value.beq a a = true
  | .nil => by simp [Value.beq]
  | .bool a => by simp [Value.beq]
  | .int a => by simp [Value.beq]
  | .float64 a => by simp [Value.beq]
  | .string a => by simp [Value.beq]
  | .array a => by simp [Value.beq, Value.beqList_self a]
  | .map a => by simp [Value.beq, Value.beqItems_self a]
theorem Value.beqList_self : ∀ (a : List Value), Value.beqList a a = true
  | [] => by simp [Value.beqList]
  | a :: as => by simp [Value.beqList, Value.beq_self a, Value.beqList_self as]
theorem Value.beqItems_self : ∀ (a : List (Value × Value)), Value.beqItems a a = true
  | [] => by simp [Value.beqItems]
  | (k, v) :: as => by
      simp [Value.beqItems, Value.beq_self k, Value.beq_self v, Value.beqItems_self as]
end

instance : DecidableEq Value := fun a b =>
  if h : Value.beq a b = true then isTrue (Value.beq_sound a b h)
  else isFalse (fun e => h (e ▸ Value.beq_self a))

/-- A `yamlmeta.MapItem`: its `Key` and its `Value`. -/
abbrev MapItem := Value × Value

/-- A `yamlmeta.Map`: the ordered slice `Items`. -/
structure Map where
  Items : List MapItem
  deriving DecidableEq, Repr

/-- A `yamlmeta.Document`: the node held in `Value`. -/
structure Document where
  Value : Value
  deriving DecidableEq, Repr

/-- A `*yamlmeta.Map` stored behind `interface{}`. -/
def Map.toValue (m : Map) : Value := .map m.Items

/-- The keys of a map, in order. -/
def Map.keys (m : Map) : List Value := m.Items.map Prod.fst

/-- The value of the first item with the given key. -/
def Map.get? (m : Map) (key : Value) : Option Value :=
  (m.Items.find? (fun i => decide (i.1 = key))).map Prod.snd

end yamlmeta

namespace schema

open yamlmeta (Value)

/-- The three ways the generator can panic. -/
inductive Panic where
  /-- Raised by the default branch of the switch in `calculateProperties`. -/
  | unrecognizedType
  /-- Raised by the default branch of the switch in `openAPITypeFor`. -/
  | unrecognizedScalar
  /-- Raised when the `.(*ArrayItemType)` assertion fails. -/
  | typeAssertion
  deriving DecidableEq, Repr

deriving instance DecidableEq for Except

/-- A `ScalarType`: `ValueType` is a Go value whose dynamic type names the kind
of the scalar, `defaultValue` is what `GetDefaultValue()` returns. -/
structure ScalarType where
  ValueType : Value
  defaultValue : Value
  deriving DecidableEq, Repr

/-- An `AnyType`: `defaultValue` is what `GetDefaultValue()` returns. -/
structure AnyType where
  defaultValue : Value
  deriving DecidableEq, Repr

/-- The Go values `calculateProperties` can be handed.  `MapType.Items` is the
slice of `*MapItemType`, each given by its `Key` and its value type;
`ArrayType.ItemsType` is what `GetValueType()` returns on an array. -/
inductive SchemaVal where
  | DocumentType (ValueType : SchemaVal)
  | MapType (Items : List (Value × SchemaVal))
  | MapItemType (Key : Value) (ValueType : SchemaVal)
  | ArrayType (ItemsType : SchemaVal) (defaultValue : Value)
  | ArrayItemType (ValueType : SchemaVal)
  | ScalarType (s : ScalarType)
  | NullType (ValueType : SchemaVal)
  | AnyType (a : AnyType)
  | other
  deriving Repr

/-- A `DocumentType`, as `OpenAPIDocument` holds it. -/
structure DocumentType where
  ValueType : SchemaVal

/-- The receiver of `AsDocument`. -/
structure OpenAPIDocument where
  docType : DocumentType

/-- The constructor `NewOpenAPIDocument`. -/
def NewOpenAPIDocument (docType : DocumentType) : OpenAPIDocument := ⟨docType⟩

/-- Modelled from the spec: `ScalarType.String` is declared outside the files at
hand.  The spec adds `format` exactly for a scalar whose declared kind is float,
so the name is "float" for a `float64` and the name of the kind otherwise. -/
def ScalarType.String (s : ScalarType) : String :=
  match s.ValueType with
  | .float64 _ => "float"
  | .int _ => "integer"
  | .bool _ => "boolean"
  | .string _ => "string"
  | _ => "unknown"

/-- The type switch of `openAPITypeFor` on the dynamic type of `ValueType`. -/
def openAPITypeFor (astType : ScalarType) : Except Panic String :=
  match astType.ValueType with
  | .string _ => .ok "string"
  | .float64 _ => .ok "number"
  | .int _ => .ok "integer"
  | .bool _ => .ok "boolean"
  | _ => .error .unrecognizedScalar

mutual
/-- The walk `calculateProperties`, one branch per case of the type switch. -/
def calculateProperties : SchemaVal → Except Panic yamlmeta.Map
  | .DocumentType valueType => calculateProperties valueType
  | .MapType items => do
      let properties ← calculatePropertiesItems items
      pure ⟨[(.string "type", .string "object"),
             (.string "additionalProperties", .bool false),
             (.string "properties", .map properties)]⟩
  | .ArrayType (.ArrayItemType valueType) defaultValue => do
      let properties ← calculateProperties valueType
      pure ⟨[(.string "type", .string "array"),
             (.string "items", properties.toValue),
             (.string "default", defaultValue)]⟩
  | .ArrayType _ _ => .error .typeAssertion
  | .ScalarType typedValue => do
      let typeString ← openAPITypeFor typedValue
      let defaultVal := typedValue.defaultValue
      let property : yamlmeta.Map :=
        ⟨[(.string "type", .string typeString), (.string "default", defaultVal)]⟩
      if typedValue.String = "float" then
        pure ⟨property.Items ++ [(.string "format", .string "float")]⟩
      else
        pure property
  | .NullType valueType => do
      let properties ← calculateProperties valueType
      pure ⟨properties.Items ++ [(.string "nullable", .bool true)]⟩
  | .AnyType typedValue => pure ⟨[(.string "default", typedValue.defaultValue)]⟩
  | _ => .error .unrecognizedType
/-- The loop over `typedValue.Items` in the `*MapType` case: every item is
rendered in slice order and appended to `properties`. -/
def calculatePropertiesItems : List (Value × SchemaVal) → Except Panic (List yamlmeta.MapItem)
  | [] => pure []
  | (key, valueType) :: rest => do
      let value ← calculateProperties valueType
      let properties ← calculatePropertiesItems rest
      pure ((key, value.toValue) :: properties)
end

/-- The method `AsDocument`: the rendering of `docType` inside the fixed envelope. -/
def AsDocument (o : OpenAPIDocument) : Except Panic yamlmeta.Document := do
  let openAPIProperties ← calculateProperties (.DocumentType o.docType.ValueType)
  pure ⟨.map [
    (.string "openapi", .string "3.0.0"),
    (.string "info", .map [
      (.string "version", .string "0.1.0"),
      (.string "title", .string "Schema for data values, generated by ytt")]),
    (.string "paths", .map []),
    (.string "components", .map [
      (.string "schemas", .map [
        (.string "dataValues", openAPIProperties.toValue)])])]⟩

end schema

namespace schema
open yamlmeta (Value)

/-! ## Predicates the properties are stated with -/

/-- The declared kind of the scalar is float: the `float64` case of the switch. -/
def ScalarType.isFloat (s : ScalarType) : Bool :=
  match s.ValueType with
  | .float64 _ => true
  | _ => false

/-- The declared kind of the scalar is one of string, float, integer, boolean:
the four cases `openAPITypeFor` names. -/
def ScalarType.isKnown (s : ScalarType) : Bool :=
  match s.ValueType with
  | .string _ => true
  | .float64 _ => true
  | .int _ => true
  | .bool _ => true
  | _ => false

/-- What `GetDefaultValue()` returns on the nodes the generator calls it on:
arrays, scalars and any-nodes.  The generator asks no other node for its
default. -/
def SchemaVal.defaultValue? : SchemaVal → Option Value
  | .ArrayType _ defaultValue => some defaultValue
  | .ScalarType s => some s.defaultValue
  | .AnyType a => some a.defaultValue
  | _ => none

mutual
/-- A well-formed type model: a finite tree of documents, maps, arrays over one
array item, scalars of the four kinds, nullable wrappers and any-nodes. -/
def WellFormed : SchemaVal → Bool
  | .DocumentType valueType => WellFormed valueType
  | .MapType items => WellFormedItems items
  | .ArrayType (.ArrayItemType valueType) _ => WellFormed valueType
  | .ScalarType s => s.isKnown
  | .NullType valueType => WellFormed valueType
  | .AnyType _ => true
  | _ => false
/-- Every item of a map has a well-formed value type. -/
def WellFormedItems : List (Value × SchemaVal) → Bool
  | [] => true
  | (_, valueType) :: rest => WellFormed valueType && WellFormedItems rest
end

/-- A node the walk has no case for: a value of a type the switch of
`calculateProperties` does not name, or a scalar whose `ValueType` the switch
of `openAPITypeFor` does not name. -/
def Unrecognized : SchemaVal → Bool
  | .MapItemType _ _ => true
  | .ArrayItemType _ => true
  | .other => true
  | .ScalarType s => !s.isKnown
  | _ => false

/-- The nodes the walk from a root hands to `calculateProperties`: the root, and
from there the value type of a document, of a map item, of the item of an array
and of a nullable wrapper. -/
inductive Reaches : SchemaVal → SchemaVal → Prop where
  | root (t : SchemaVal) : Reaches t t
  | document {valueType n : SchemaVal} :
      Reaches valueType n → Reaches (.DocumentType valueType) n
  | mapItem {items : List (Value × SchemaVal)} {key : Value} {valueType n : SchemaVal} :
      (key, valueType) ∈ items → Reaches valueType n → Reaches (.MapType items) n
  | arrayItem {valueType n : SchemaVal} {defaultValue : Value} :
      Reaches valueType n → Reaches (.ArrayType (.ArrayItemType valueType) defaultValue) n
  | null {valueType n : SchemaVal} :
      Reaches valueType n → Reaches (.NullType valueType) n

/-- The node left after stripping every enclosing document and nullable
wrapper. -/
def underlying : SchemaVal → SchemaVal
  | .DocumentType valueType => underlying valueType
  | .NullType valueType => underlying valueType
  | t => t

/-- The node is an any-node. -/
def SchemaVal.isAnyType : SchemaVal → Bool
  | .AnyType _ => true
  | _ => false

/-- The node is a map, an array or a scalar. -/
def SchemaVal.isTyped : SchemaVal → Bool
  | .MapType _ => true
  | .ArrayType _ _ => true
  | .ScalarType _ => true
  | _ => false

/-- The node is a nullable wrapper, directly or through documents. -/
def wrapsNull : SchemaVal → Bool
  | .DocumentType valueType => wrapsNull valueType
  | .NullType _ => true
  | _ => false

mutual
/-- The keys of the items of every map are pairwise distinct, and no nullable
wrapper wraps a nullable wrapper, directly or through documents. -/
def DistinctKeys : SchemaVal → Bool
  | .DocumentType valueType => DistinctKeys valueType
  | .MapType items =>
      decide ((items.map Prod.fst).Nodup) && DistinctKeysItems items
  | .MapItemType _ valueType => DistinctKeys valueType
  | .ArrayType itemsType _ => DistinctKeys itemsType
  | .ArrayItemType valueType => DistinctKeys valueType
  | .NullType valueType => !wrapsNull valueType && DistinctKeys valueType
  | _ => true
/-- The value type of every item satisfies `DistinctKeys`. -/
def DistinctKeysItems : List (Value × SchemaVal) → Bool
  | [] => true
  | (_, valueType) :: rest => DistinctKeys valueType && DistinctKeysItems rest
end

mutual
/-- The number of nested calls of `calculateProperties` below the call on the
node: one more than the deepest child the walk descends into, and none below
a scalar, an any-node or a node the walk panics on. -/
def depth : SchemaVal → Nat
  | .DocumentType valueType => depth valueType + 1
  | .MapType items => depthItems items
  | .ArrayType (.ArrayItemType valueType) _ => depth valueType + 1
  | .NullType valueType => depth valueType + 1
  | _ => 0
/-- One more than the deepest value type among the items; none for no items. -/
def depthItems : List (Value × SchemaVal) → Nat
  | [] => 0
  | (_, valueType) :: rest => max (depth valueType + 1) (depthItems rest)
end

/-- The loop over `typedValue.Items` with the recursive call taken as a
parameter: `none` when a call runs out of fuel. -/
def calculatePropertiesItemsWith (call : SchemaVal → Option (Except Panic yamlmeta.Map)) :
    List (Value × SchemaVal) → Option (Except Panic (List yamlmeta.MapItem))
  | [] => some (.ok [])
  | (key, valueType) :: rest =>
      match call valueType with
      | none => none
      | some (.error e) => some (.error e)
      | some (.ok value) =>
          match calculatePropertiesItemsWith call rest with
          | none => none
          | some (.error e) => some (.error e)
          | some (.ok properties) => some (.ok ((key, value.toValue) :: properties))

/-- The walk `calculateProperties` as the plain recursion of the source, with a
bound on the depth of nested calls in place of a termination argument: `none`
when the bound is used up, the outcome of the call otherwise. -/
def calculatePropertiesFuel : Nat → SchemaVal → Option (Except Panic yamlmeta.Map)
  | 0, _ => none
  | fuel + 1, schemaVal =>
      match schemaVal with
      | .DocumentType valueType => calculatePropertiesFuel fuel valueType
      | .MapType items =>
          match calculatePropertiesItemsWith (calculatePropertiesFuel fuel) items with
          | none => none
          | some (.error e) => some (.error e)
          | some (.ok properties) =>
              some (.ok ⟨[(.string "type", .string "object"),
                          (.string "additionalProperties", .bool false),
                          (.string "properties", .map properties)]⟩)
      | .ArrayType (.ArrayItemType valueType) defaultValue =>
          match calculatePropertiesFuel fuel valueType with
          | none => none
          | some (.error e) => some (.error e)
          | some (.ok properties) =>
              some (.ok ⟨[(.string "type", .string "array"),
                          (.string "items", properties.toValue),
                          (.string "default", defaultValue)]⟩)
      | .ArrayType _ _ => some (.error .typeAssertion)
      | .ScalarType typedValue =>
          match openAPITypeFor typedValue with
          | .error e => some (.error e)
          | .ok typeString =>
              if typedValue.String = "float" then
                some (.ok ⟨[(.string "type", .string typeString),
                            (.string "default", typedValue.defaultValue),
                            (.string "format", .string "float")]⟩)
              else
                some (.ok ⟨[(.string "type", .string typeString),
                            (.string "default", typedValue.defaultValue)]⟩)
      | .NullType valueType =>
          match calculatePropertiesFuel fuel valueType with
          | none => none
          | some (.error e) => some (.error e)
          | some (.ok properties) =>
              some (.ok ⟨properties.Items ++ [(.string "nullable", .bool true)]⟩)
      | .AnyType typedValue => some (.ok ⟨[(.string "default", typedValue.defaultValue)]⟩)
      | _ => some (.error .unrecognizedType)

mutual
/-- The value is a schema mapping without duplicate keys at any depth: its own
keys are pairwise distinct, and so are those of the schema mappings below it. -/
def distinctSchemaKeys : Value → Bool
  | .map items => decide ((items.map Prod.fst).Nodup) && distinctEntryKeys items
  | _ => false
/-- The entries of a schema mapping: the value of `properties` is a mapping of
properties, the value of `items` is a schema mapping, and every other value is
a literal, which is not looked into. -/
def distinctEntryKeys : List (Value × Value) → Bool
  | [] => true
  | (key, value) :: rest =>
      (if key = .string "properties" then distinctPropertyKeys value
       else if key = .string "items" then distinctSchemaKeys value
       else true) && distinctEntryKeys rest
/-- The value is a `properties` mapping: its keys are pairwise distinct and
every value in it is a schema mapping without duplicate keys. -/
def distinctPropertyKeys : Value → Bool
  | .map properties =>
      decide ((properties.map Prod.fst).Nodup) && distinctValueKeys properties
  | _ => false
/-- Every value of a `properties` mapping is a schema mapping without duplicate
keys. -/
def distinctValueKeys : List (Value × Value) → Bool
  | [] => true
  | (_, value) :: rest => distinctSchemaKeys value && distinctValueKeys rest
end

end schema

namespace schema
open yamlmeta (Value)

/-! ## Unfolding lemmas for the walk -/

theorem calculateProperties_DocumentType (valueType : SchemaVal) :
    calculateProperties (.DocumentType valueType) = calculateProperties valueType := by
  rw [calculateProperties]

theorem calculateProperties_MapType (items : List (Value × SchemaVal)) :
    calculateProperties (.MapType items) =
      (calculatePropertiesItems items).map (fun properties =>
        (⟨[(.string "type", .string "object"),
           (.string "additionalProperties", .bool false),
           (.string "properties", .map properties)]⟩ : yamlmeta.Map)) := by
  rw [calculateProperties]
  cases calculatePropertiesItems items <;> rfl

theorem calculateProperties_ArrayType (valueType : SchemaVal) (defaultValue : Value) :
    calculateProperties (.ArrayType (.ArrayItemType valueType) defaultValue) =
      (calculateProperties valueType).map (fun properties =>
        (⟨[(.string "type", .string "array"),
           (.string "items", properties.toValue),
           (.string "default", defaultValue)]⟩ : yamlmeta.Map)) := by
  rw [calculateProperties]
  cases calculateProperties valueType <;> rfl

theorem calculateProperties_NullType (valueType : SchemaVal) :
    calculateProperties (.NullType valueType) =
      (calculateProperties valueType).map (fun properties =>
        (⟨properties.Items ++ [(.string "nullable", .bool true)]⟩ : yamlmeta.Map)) := by
  rw [calculateProperties]
  cases calculateProperties valueType <;> rfl

theorem calculateProperties_AnyType (typedValue : AnyType) :
    calculateProperties (.AnyType typedValue) =
      .ok ⟨[(.string "default", typedValue.defaultValue)]⟩ := by
  rw [calculateProperties]; rfl

theorem calculatePropertiesItems_nil :
    calculatePropertiesItems [] = .ok [] := by
  rw [calculatePropertiesItems]; rfl

theorem calculatePropertiesItems_cons (key : Value) (valueType : SchemaVal)
    (rest : List (Value × SchemaVal)) :
    calculatePropertiesItems ((key, valueType) :: rest) =
      (calculateProperties valueType).bind (fun value =>
        (calculatePropertiesItems rest).map (fun properties =>
          (key, value.toValue) :: properties)) := by
  rw [calculatePropertiesItems]
  cases calculateProperties valueType with
  | error e => rfl
  | ok v => cases calculatePropertiesItems rest <;> rfl

theorem calculateProperties_ScalarType (s : ScalarType) :
    calculateProperties (.ScalarType s) =
      (openAPITypeFor s).map (fun typeString =>
        if s.String = "float" then
          (⟨[(.string "type", .string typeString), (.string "default", s.defaultValue),
             (.string "format", .string "float")]⟩ : yamlmeta.Map)
        else
          ⟨[(.string "type", .string typeString), (.string "default", s.defaultValue)]⟩) := by
  rw [calculateProperties]
  cases openAPITypeFor s with
  | error e => rfl
  | ok typeString =>
    simp only [bind, Except.bind, Except.map]
    split <;> rfl

theorem calculateProperties_ArrayType_of_not_item (itemsType : SchemaVal) (defaultValue : Value)
    (h : ∀ valueType, itemsType ≠ .ArrayItemType valueType) :
    calculateProperties (.ArrayType itemsType defaultValue) = .error .typeAssertion := by
  cases itemsType with
  | ArrayItemType valueType => exact absurd rfl (h valueType)
  | _ => rw [calculateProperties]; intro valueType hv; cases hv

theorem calculateProperties_NullType_of_ok (x : SchemaVal) (m : yamlmeta.Map)
    (h : calculateProperties x = .ok m) :
    calculateProperties (.NullType x) =
      .ok ⟨m.Items ++ [(.string "nullable", .bool true)]⟩ := by
  rw [calculateProperties_NullType, h]; rfl

theorem calculateProperties_ScalarType_of_not_float (s : ScalarType) (typeString : String)
    (ht : openAPITypeFor s = .ok typeString) (hf : s.String ≠ "float") :
    calculateProperties (.ScalarType s) =
      .ok ⟨[(.string "type", .string typeString), (.string "default", s.defaultValue)]⟩ := by
  rw [calculateProperties, ht]
  simp only [bind, Except.bind, hf, if_false]
  rfl

theorem calculateProperties_ScalarType_of_float (s : ScalarType) (typeString : String)
    (ht : openAPITypeFor s = .ok typeString) (hf : s.String = "float") :
    calculateProperties (.ScalarType s) =
      .ok ⟨[(.string "type", .string typeString), (.string "default", s.defaultValue),
            (.string "format", .string "float")]⟩ := by
  rw [calculateProperties, ht]
  simp only [bind, Except.bind, hf, if_true]
  rfl

/-- The loop over the items of a map succeeds when every item renders, and what
it returns lines up with the items one for one. -/
theorem calculatePropertiesItems_ok (items : List (Value × SchemaVal))
    (h : ∀ i ∈ items, ∃ m, calculateProperties i.2 = .ok m) :
    ∃ P, calculatePropertiesItems items = .ok P ∧
      List.Forall₂ (fun (i : Value × SchemaVal) (p : yamlmeta.MapItem) =>
        ∃ m, calculateProperties i.2 = .ok m ∧ p = (i.1, .map m.Items)) items P := by
  induction items with
  | nil => exact ⟨[], calculatePropertiesItems_nil, List.Forall₂.nil⟩
  | cons i rest ih =>
    obtain ⟨key, valueType⟩ := i
    obtain ⟨m, hm⟩ := h (key, valueType) (List.mem_cons_self _ _)
    obtain ⟨P, hP, hF⟩ := ih (fun j hj => h j (List.mem_cons_of_mem _ hj))
    refine ⟨(key, .map m.Items) :: P, ?_, List.Forall₂.cons ⟨m, hm, rfl⟩ hF⟩
    rw [calculatePropertiesItems_cons, show calculateProperties valueType = .ok m from hm, hP]
    rfl

theorem forall₂_getElem? {α β : Type} {R : α → β → Prop} {l₁ : List α} {l₂ : List β}
    (h : List.Forall₂ R l₁ l₂) (n : Nat) (a : α) (ha : l₁[n]? = some a) :
    ∃ b, l₂[n]? = some b ∧ R a b := by
  induction h generalizing n with
  | nil => simp at ha
  | cons hab _ ih =>
    cases n with
    | zero =>
      simp only [List.getElem?_cons_zero, Option.some.injEq] at ha
      subst ha
      exact ⟨_, by simp, hab⟩
    | succ n =>
      simp only [List.getElem?_cons_succ] at ha
      obtain ⟨b, hb, hr⟩ := ih n ha
      exact ⟨b, by simpa using hb, hr⟩

/-! ## The envelope -/

/-- C1: when rendering the root document type succeeds with the mapping `m`,
`AsDocument` returns the ordered mapping with exactly the four keys `openapi`,
`info`, `paths`, `components` in that order, holding "3.0.0", the fixed version
and title, the empty mapping, and `schemas: dataValues: m`; only `m` depends on
the input. -/
theorem AsDocument_envelope (o : OpenAPIDocument) (m : yamlmeta.Map)
    (h : calculateProperties (.DocumentType o.docType.ValueType) = .ok m) :
    AsDocument o = .ok ⟨.map [
      (.string "openapi", .string "3.0.0"),
      (.string "info", .map [
        (.string "version", .string "0.1.0"),
        (.string "title", .string "Schema for data values, generated by ytt")]),
      (.string "paths", .map []),
      (.string "components", .map [
        (.string "schemas", .map [
          (.string "dataValues", .map m.Items)])])]⟩ := by
  unfold AsDocument
  rw [h]
  rfl

theorem AsDocument_envelope_witness :
    calculateProperties (.DocumentType
        (NewOpenAPIDocument ⟨.MapType [(.string "int_key", .ScalarType ⟨.int 0, .int 10⟩)]⟩).docType.ValueType) =
      .ok ⟨[(.string "type", .string "object"),
            (.string "additionalProperties", .bool false),
            (.string "properties", .map [(.string "int_key",
              .map [(.string "type", .string "integer"), (.string "default", .int 10)])])]⟩ ∧
    AsDocument (NewOpenAPIDocument ⟨.MapType [(.string "int_key", .ScalarType ⟨.int 0, .int 10⟩)]⟩) =
      .ok ⟨.map [
        (.string "openapi", .string "3.0.0"),
        (.string "info", .map [
          (.string "version", .string "0.1.0"),
          (.string "title", .string "Schema for data values, generated by ytt")]),
        (.string "paths", .map []),
        (.string "components", .map [
          (.string "schemas", .map [
            (.string "dataValues", .map [(.string "type", .string "object"),
              (.string "additionalProperties", .bool false),
              (.string "properties", .map [(.string "int_key",
                .map [(.string "type", .string "integer"), (.string "default", .int 10)])])])])])]⟩ :=
  ⟨by decide, AsDocument_envelope _ _ (by decide)⟩

/-! ## Maps -/

/-- C2: for a map whose item types all render, `calculateProperties` returns
exactly `type: object`, `additionalProperties: false`, `properties: P`, where `P`
has as many entries as the map has items and its n-th entry is the key of the
n-th item with the rendering of that item's type: declaration order, nothing
dropped or duplicated, also for a map without items. -/
theorem calculateProperties_MapType_in_order (items : List (Value × SchemaVal))
    (h : ∀ i ∈ items, ∃ m, calculateProperties i.2 = .ok m) :
    ∃ P : List yamlmeta.MapItem,
      calculateProperties (.MapType items) =
        .ok ⟨[(.string "type", .string "object"),
              (.string "additionalProperties", .bool false),
              (.string "properties", .map P)]⟩ ∧
      P.length = items.length ∧
      P.map Prod.fst = items.map Prod.fst ∧
      (∀ (n : Nat) (i : Value × SchemaVal), items[n]? = some i →
        ∃ m, calculateProperties i.2 = .ok m ∧ P[n]? = some (i.1, .map m.Items)) ∧
      (items = [] → P = []) := by
  obtain ⟨P, hP, hF⟩ := calculatePropertiesItems_ok items h
  refine ⟨P, ?_, hF.length_eq.symm, ?_, ?_, ?_⟩
  · rw [calculateProperties_MapType, hP]; rfl
  · clear hP h
    induction hF with
    | nil => rfl
    | cons hab _ ih =>
      obtain ⟨m, _, hp⟩ := hab
      simp [hp, ih]
  · intro n i hi
    obtain ⟨p, hp, m, hm, hpm⟩ := forall₂_getElem? hF n i hi
    exact ⟨m, hm, by rw [hp, hpm]⟩
  · intro he
    subst he
    cases hF
    rfl

theorem calculateProperties_MapType_in_order_witness :
    (∀ i ∈ [((.string "b" : Value), SchemaVal.ScalarType ⟨.bool false, .bool true⟩),
            (.string "a", .AnyType ⟨.nil⟩)],
        ∃ m, calculateProperties i.2 = .ok m) ∧
    ∃ P : List yamlmeta.MapItem,
      calculateProperties (.MapType [(.string "b", .ScalarType ⟨.bool false, .bool true⟩),
          (.string "a", .AnyType ⟨.nil⟩)]) =
        .ok ⟨[(.string "type", .string "object"),
              (.string "additionalProperties", .bool false),
              (.string "properties", .map P)]⟩ ∧
      P.length = [((.string "b" : Value), SchemaVal.ScalarType ⟨.bool false, .bool true⟩),
            (.string "a", .AnyType ⟨.nil⟩)].length ∧
      P.map Prod.fst = [((.string "b" : Value), SchemaVal.ScalarType ⟨.bool false, .bool true⟩),
            (.string "a", .AnyType ⟨.nil⟩)].map Prod.fst ∧
      (∀ (n : Nat) (i : Value × SchemaVal),
        [((.string "b" : Value), SchemaVal.ScalarType ⟨.bool false, .bool true⟩),
            (.string "a", .AnyType ⟨.nil⟩)][n]? = some i →
        ∃ m, calculateProperties i.2 = .ok m ∧ P[n]? = some (i.1, .map m.Items)) ∧
      ([((.string "b" : Value), SchemaVal.ScalarType ⟨.bool false, .bool true⟩),
            (.string "a", .AnyType ⟨.nil⟩)] = [] → P = []) :=
  ⟨by
    intro i hi
    simp only [List.mem_cons, List.mem_singleton, List.not_mem_nil, or_false] at hi
    rcases hi with rfl | rfl
    · exact ⟨_, rfl⟩
    · exact ⟨_, rfl⟩,
   calculateProperties_MapType_in_order _ (by
    intro i hi
    simp only [List.mem_cons, List.mem_singleton, List.not_mem_nil, or_false] at hi
    rcases hi with rfl | rfl
    · exact ⟨_, rfl⟩
    · exact ⟨_, rfl⟩)⟩

/-! ## Scalars -/

/-- C3: a scalar of kind string, integer or boolean with default `d` renders as
exactly the two entries `type: T`, `default: d`, with `T` the name
`openAPITypeFor` gives ("string", "integer", "boolean"); for kind float the
`type` entry is "number".  An integer field with literal `v` renders as exactly
`type: integer`, `default: v`. -/
theorem calculateProperties_ScalarType_by_kind (v : String) (i : Int) (b : Bool) (f : Nat)
    (d : Value) :
    (openAPITypeFor ⟨.string v, d⟩ = .ok "string" ∧
      calculateProperties (.ScalarType ⟨.string v, d⟩) =
        .ok ⟨[(.string "type", .string "string"), (.string "default", d)]⟩) ∧
    (openAPITypeFor ⟨.int i, d⟩ = .ok "integer" ∧
      calculateProperties (.ScalarType ⟨.int i, d⟩) =
        .ok ⟨[(.string "type", .string "integer"), (.string "default", d)]⟩) ∧
    (openAPITypeFor ⟨.bool b, d⟩ = .ok "boolean" ∧
      calculateProperties (.ScalarType ⟨.bool b, d⟩) =
        .ok ⟨[(.string "type", .string "boolean"), (.string "default", d)]⟩) ∧
    (openAPITypeFor ⟨.float64 f, d⟩ = .ok "number" ∧
      ∃ rest, calculateProperties (.ScalarType ⟨.float64 f, d⟩) =
        .ok ⟨(.string "type", .string "number") :: rest⟩) ∧
    calculateProperties (.ScalarType ⟨.int i, .int i⟩) =
      .ok ⟨[(.string "type", .string "integer"), (.string "default", .int i)]⟩ := by
  refine ⟨⟨rfl, ?_⟩, ⟨rfl, ?_⟩, ⟨rfl, ?_⟩, ⟨rfl, ?_⟩, ?_⟩
  · exact calculateProperties_ScalarType_of_not_float _ _ rfl (by simp [ScalarType.String])
  · exact calculateProperties_ScalarType_of_not_float _ _ rfl (by simp [ScalarType.String])
  · exact calculateProperties_ScalarType_of_not_float _ _ rfl (by simp [ScalarType.String])
  · exact ⟨_, calculateProperties_ScalarType_of_float ⟨.float64 f, d⟩ _ rfl rfl⟩
  · exact calculateProperties_ScalarType_of_not_float _ _ rfl (by simp [ScalarType.String])

/-- C4: for a scalar of any of the four kinds and any default `d`, the rendered
mapping has the entry `format: float` exactly when the declared kind is float;
it is then the third entry, after `type: number` and `default: d`; it is there
exactly when the rendered `type` is "number"; and whether it is there does not
change with the default. -/
theorem calculateProperties_ScalarType_format (s : ScalarType) (hk : s.isKnown = true) :
    ∃ m, calculateProperties (.ScalarType s) = .ok m ∧
      ((.string "format", .string "float") ∈ m.Items ↔ s.isFloat = true) ∧
      (.string "format" ∈ m.keys ↔ s.isFloat = true) ∧
      (s.isFloat = true →
        m.Items = [(.string "type", .string "number"), (.string "default", s.defaultValue),
          (.string "format", .string "float")]) ∧
      (.string "format" ∈ m.keys ↔ m.get? (.string "type") = some (.string "number")) ∧
      (∀ d : Value, ∃ m', calculateProperties (.ScalarType ⟨s.ValueType, d⟩) = .ok m' ∧
        (.string "format" ∈ m'.keys ↔ .string "format" ∈ m.keys)) := by
  obtain ⟨vt, d⟩ := s
  cases vt with
  | string v =>
    have hr : ∀ d' : Value, calculateProperties (.ScalarType ⟨.string v, d'⟩) =
        .ok ⟨[(.string "type", .string "string"), (.string "default", d')]⟩ := fun d' =>
      calculateProperties_ScalarType_of_not_float _ _ rfl (by simp [ScalarType.String])
    refine ⟨_, hr d, ?_, ?_, ?_, ?_, fun d' => ⟨_, hr d', ?_⟩⟩ <;>
      simp [ScalarType.isFloat, yamlmeta.Map.keys, yamlmeta.Map.get?]
  | int v =>
    have hr : ∀ d' : Value, calculateProperties (.ScalarType ⟨.int v, d'⟩) =
        .ok ⟨[(.string "type", .string "integer"), (.string "default", d')]⟩ := fun d' =>
      calculateProperties_ScalarType_of_not_float _ _ rfl (by simp [ScalarType.String])
    refine ⟨_, hr d, ?_, ?_, ?_, ?_, fun d' => ⟨_, hr d', ?_⟩⟩ <;>
      simp [ScalarType.isFloat, yamlmeta.Map.keys, yamlmeta.Map.get?]
  | bool v =>
    have hr : ∀ d' : Value, calculateProperties (.ScalarType ⟨.bool v, d'⟩) =
        .ok ⟨[(.string "type", .string "boolean"), (.string "default", d')]⟩ := fun d' =>
      calculateProperties_ScalarType_of_not_float _ _ rfl (by simp [ScalarType.String])
    refine ⟨_, hr d, ?_, ?_, ?_, ?_, fun d' => ⟨_, hr d', ?_⟩⟩ <;>
      simp [ScalarType.isFloat, yamlmeta.Map.keys, yamlmeta.Map.get?]
  | float64 v =>
    have hr : ∀ d' : Value, calculateProperties (.ScalarType ⟨.float64 v, d'⟩) =
        .ok ⟨[(.string "type", .string "number"), (.string "default", d'),
          (.string "format", .string "float")]⟩ := fun d' =>
      calculateProperties_ScalarType_of_float _ _ rfl rfl
    refine ⟨_, hr d, ?_, ?_, ?_, ?_, fun d' => ⟨_, hr d', ?_⟩⟩ <;>
      simp [ScalarType.isFloat, yamlmeta.Map.keys, yamlmeta.Map.get?]
  | nil => simp [ScalarType.isKnown] at hk
  | array _ => simp [ScalarType.isKnown] at hk
  | map _ => simp [ScalarType.isKnown] at hk

theorem calculateProperties_ScalarType_format_witness :
    (⟨.float64 0, .float64 0⟩ : ScalarType).isKnown = true ∧
    ∃ m, calculateProperties (.ScalarType ⟨.float64 0, .float64 0⟩) = .ok m ∧
      ((.string "format", .string "float") ∈ m.Items ↔
        (⟨.float64 0, .float64 0⟩ : ScalarType).isFloat = true) ∧
      (.string "format" ∈ m.keys ↔ (⟨.float64 0, .float64 0⟩ : ScalarType).isFloat = true) ∧
      ((⟨.float64 0, .float64 0⟩ : ScalarType).isFloat = true →
        m.Items = [(.string "type", .string "number"),
          (.string "default", (⟨.float64 0, .float64 0⟩ : ScalarType).defaultValue),
          (.string "format", .string "float")]) ∧
      (.string "format" ∈ m.keys ↔ m.get? (.string "type") = some (.string "number")) ∧
      (∀ d : Value, ∃ m', calculateProperties
          (.ScalarType ⟨(⟨.float64 0, .float64 0⟩ : ScalarType).ValueType, d⟩) = .ok m' ∧
        (.string "format" ∈ m'.keys ↔ .string "format" ∈ m.keys)) :=
  ⟨by decide, calculateProperties_ScalarType_format ⟨.float64 0, .float64 0⟩ (by decide)⟩

/-! ## Nullable wrappers -/

/-- C5: when the wrapped node renders to `m`, the nullable wrapper renders to
the entries of `m` followed by the one entry `nullable: true`; every entry of
`m` keeps its key, value and position. -/
theorem calculateProperties_NullType_appends (x : SchemaVal) (m : yamlmeta.Map)
    (h : calculateProperties x = .ok m) :
    calculateProperties (.NullType x) =
      .ok ⟨m.Items ++ [(.string "nullable", .bool true)]⟩ ∧
    (m.Items ++ [((.string "nullable" : Value), Value.bool true)]).length = m.Items.length + 1 ∧
    ∀ (n : Nat) (e : yamlmeta.MapItem), m.Items[n]? = some e →
      (m.Items ++ [((.string "nullable" : Value), Value.bool true)])[n]? = some e := by
  refine ⟨calculateProperties_NullType_of_ok x m h, by simp, ?_⟩
  · intro n e he
    have hn : n < m.Items.length := by
      by_contra hc
      rw [List.getElem?_eq_none (Nat.le_of_not_lt hc)] at he
      exact Option.noConfusion he
    rw [List.getElem?_append_left hn, he]

theorem calculateProperties_NullType_appends_witness :
    calculateProperties (.ScalarType ⟨.float64 0, .nil⟩) =
      .ok ⟨[(.string "type", .string "number"), (.string "default", .nil),
        (.string "format", .string "float")]⟩ ∧
    calculateProperties (.NullType (.ScalarType ⟨.float64 0, .nil⟩)) =
      .ok ⟨[(.string "type", .string "number"), (.string "default", .nil),
        (.string "format", .string "float"), (.string "nullable", .bool true)]⟩ :=
  ⟨by decide,
   (calculateProperties_NullType_appends (.ScalarType ⟨.float64 0, .nil⟩)
      ⟨[(.string "type", .string "number"), (.string "default", .nil),
        (.string "format", .string "float")]⟩ (by decide)).1⟩

/-- C6, as stated, fails on a nullable map: the rendering of the wrapped map has
no `default` key, and the wrapper adds none. -/
theorem calculateProperties_NullType_MapType_no_default :
    calculateProperties (.NullType (.MapType [(.string "bar", .ScalarType ⟨.string "", .nil⟩)])) =
      .ok ⟨[(.string "type", .string "object"),
            (.string "additionalProperties", .bool false),
            (.string "properties", .map [(.string "bar",
              .map [(.string "type", .string "string"), (.string "default", .nil)])]),
            (.string "nullable", .bool true)]⟩ ∧
    .string "default" ∉ (⟨[(.string "type", .string "object"),
            (.string "additionalProperties", .bool false),
            (.string "properties", .map [(.string "bar",
              .map [(.string "type", .string "string"), (.string "default", .nil)])]),
            (.string "nullable", .bool true)]⟩ : yamlmeta.Map).keys := by
  decide

/-- C6, amended: a nullable wrapper over a scalar, an array or an any-node that
renders, whose own default is `d` (the null literal when none was declared, the
declared literal otherwise), renders with `default: d` and `nullable: true`;
over a map that renders it has `nullable: true` and no `default` key. -/
theorem calculateProperties_NullType_default (x : SchemaVal) (m₀ : yamlmeta.Map)
    (hx : calculateProperties x = .ok m₀) :
    ∃ m, calculateProperties (.NullType x) = .ok m ∧
      (∀ d, x.defaultValue? = some d →
        m.get? (.string "default") = some d ∧
        m.get? (.string "nullable") = some (.bool true)) ∧
      (∀ items, x = .MapType items →
        .string "default" ∉ m.keys ∧
        m.get? (.string "nullable") = some (.bool true)) := by
  refine ⟨_, calculateProperties_NullType_of_ok x m₀ hx, ?_, ?_⟩
  · intro d hd
    cases x with
    | ArrayType it dv =>
      cases it with
      | ArrayItemType vt =>
        rw [calculateProperties_ArrayType] at hx
        cases hvt : calculateProperties vt with
        | error e => rw [hvt] at hx; exact Except.noConfusion hx
        | ok mv =>
          rw [hvt] at hx
          simp only [SchemaVal.defaultValue?, Option.some.injEq] at hd
          injection hx with hx
          subst hx; subst hd
          simp [yamlmeta.Map.get?]
      | _ =>
        rw [calculateProperties_ArrayType_of_not_item _ _ (by intro vt hv; cases hv)] at hx
        exact Except.noConfusion hx
    | ScalarType s =>
      simp only [SchemaVal.defaultValue?, Option.some.injEq] at hd
      rw [calculateProperties_ScalarType] at hx
      cases ht : openAPITypeFor s with
      | error e => rw [ht] at hx; exact Except.noConfusion hx
      | ok typeString =>
        rw [ht] at hx
        injection hx with hx
        subst hx; subst hd
        split <;> simp [yamlmeta.Map.get?]
    | AnyType a =>
      rw [calculateProperties_AnyType] at hx
      simp only [SchemaVal.defaultValue?, Option.some.injEq] at hd
      injection hx with hx
      subst hx; subst hd
      simp [yamlmeta.Map.get?]
    | _ => simp [SchemaVal.defaultValue?] at hd
  · intro items hi
    subst hi
    rw [calculateProperties_MapType] at hx
    cases hp : calculatePropertiesItems items with
    | error e => rw [hp] at hx; exact Except.noConfusion hx
    | ok P =>
      rw [hp] at hx
      injection hx with hx
      subst hx
      simp [yamlmeta.Map.get?, yamlmeta.Map.keys]

theorem calculateProperties_NullType_default_witness :
    calculateProperties (.ScalarType ⟨.int 0, .int 10⟩) =
      .ok ⟨[(.string "type", .string "integer"), (.string "default", .int 10)]⟩ ∧
    calculateProperties (.NullType (.ScalarType ⟨.int 0, .int 10⟩)) =
      .ok ⟨[(.string "type", .string "integer"), (.string "default", .int 10),
        (.string "nullable", .bool true)]⟩ ∧
    ∃ m, calculateProperties (.NullType (.ScalarType ⟨.int 0, .int 10⟩)) = .ok m ∧
      (∀ d, (SchemaVal.ScalarType ⟨.int 0, .int 10⟩).defaultValue? = some d →
        m.get? (.string "default") = some d ∧
        m.get? (.string "nullable") = some (.bool true)) ∧
      (∀ items, SchemaVal.ScalarType ⟨.int 0, .int 10⟩ = .MapType items →
        .string "default" ∉ m.keys ∧
        m.get? (.string "nullable") = some (.bool true)) :=
  ⟨by decide, by decide,
   calculateProperties_NullType_default (.ScalarType ⟨.int 0, .int 10⟩)
     ⟨[(.string "type", .string "integer"), (.string "default", .int 10)]⟩ (by decide)⟩

/-! ## Any-nodes and arrays -/

/-- C7: an any-node with default `d`, whatever `d` is, renders as the mapping
with the single entry `default: d`, `d` passed through as it is; the mapping has
no `type`, `properties`, `items`, `additionalProperties`, `format` or `nullable`
key. -/
theorem calculateProperties_AnyType_only_default (typedValue : AnyType) :
    ∃ m, calculateProperties (.AnyType typedValue) = .ok m ∧
      m.Items = [(.string "default", typedValue.defaultValue)] ∧
      m.keys = [.string "default"] ∧
      m.get? (.string "default") = some typedValue.defaultValue ∧
      ∀ k ∈ [Value.string "type", .string "properties", .string "items",
          .string "additionalProperties", .string "format", .string "nullable"],
        k ∉ m.keys := by
  refine ⟨_, calculateProperties_AnyType typedValue, rfl, rfl, ?_, ?_⟩
  · simp [yamlmeta.Map.get?]
  · intro k hk
    simp only [List.mem_cons, List.mem_singleton, List.not_mem_nil, or_false] at hk
    rcases hk with rfl | rfl | rfl | rfl | rfl | rfl <;> simp [yamlmeta.Map.keys]

/-- C8: an array with own default `D` whose element type `E`, held in an array
item, renders to `m` renders as exactly `type: array`, `items: m`, `default: D`;
the `default` entry is `D` itself, and an array with the same `D` over any other
element type that renders has the same `default` entry, in the same place. -/
theorem calculateProperties_ArrayType_default (E : SchemaVal) (D : Value) (m : yamlmeta.Map)
    (h : calculateProperties E = .ok m) :
    calculateProperties (.ArrayType (.ArrayItemType E) D) =
      .ok ⟨[(.string "type", .string "array"),
            (.string "items", .map m.Items),
            (.string "default", D)]⟩ ∧
    ∀ (E' : SchemaVal) (m' : yamlmeta.Map), calculateProperties E' = .ok m' →
      ∃ r, calculateProperties (.ArrayType (.ArrayItemType E') D) = .ok r ∧
        r.Items[2]? = some (.string "default", D) ∧
        r.get? (.string "default") = some D := by
  constructor
  · rw [calculateProperties_ArrayType, h]; rfl
  · intro E' m' h'
    refine ⟨⟨[(.string "type", .string "array"), (.string "items", .map m'.Items),
      (.string "default", D)]⟩, ?_, rfl, ?_⟩
    · rw [calculateProperties_ArrayType, h']; rfl
    · simp [yamlmeta.Map.get?]

theorem calculateProperties_ArrayType_default_witness :
    calculateProperties (.ScalarType ⟨.int 0, .int 0⟩) =
      .ok ⟨[(.string "type", .string "integer"), (.string "default", .int 0)]⟩ ∧
    (calculateProperties (.ArrayType (.ArrayItemType (.ScalarType ⟨.int 0, .int 0⟩))
        (.array [.int 1, .int 2, .int 3])) =
      .ok ⟨[(.string "type", .string "array"),
            (.string "items",
              .map [(.string "type", .string "integer"), (.string "default", .int 0)]),
            (.string "default", .array [.int 1, .int 2, .int 3])]⟩ ∧
    ∀ (E' : SchemaVal) (m' : yamlmeta.Map), calculateProperties E' = .ok m' →
      ∃ r, calculateProperties (.ArrayType (.ArrayItemType E')
          (.array [.int 1, .int 2, .int 3])) = .ok r ∧
        r.Items[2]? = some (.string "default", .array [.int 1, .int 2, .int 3]) ∧
        r.get? (.string "default") = some (.array [.int 1, .int 2, .int 3])) :=
  ⟨by decide,
   calculateProperties_ArrayType_default (.ScalarType ⟨.int 0, .int 0⟩)
     (.array [.int 1, .int 2, .int 3])
     ⟨[(.string "type", .string "integer"), (.string "default", .int 0)]⟩ (by decide)⟩

/-! ## Panics -/

mutual
theorem calculateProperties_ok_of_WellFormed :
    ∀ t : SchemaVal, WellFormed t = true → ∃ m, calculateProperties t = .ok m
  | .DocumentType valueType, h => by
      rw [WellFormed] at h
      rw [calculateProperties_DocumentType]
      exact calculateProperties_ok_of_WellFormed valueType h
  | .MapType items, h => by
      rw [WellFormed] at h
      obtain ⟨P, hP⟩ := calculatePropertiesItems_ok_of_WellFormed items h
      rw [calculateProperties_MapType, hP]
      exact ⟨_, rfl⟩
  | .ArrayType (.ArrayItemType valueType) defaultValue, h => by
      rw [WellFormed] at h
      obtain ⟨m, hm⟩ := calculateProperties_ok_of_WellFormed valueType h
      rw [calculateProperties_ArrayType, hm]
      exact ⟨_, rfl⟩
  | .ScalarType s, h => by
      rw [WellFormed] at h
      rw [calculateProperties_ScalarType]
      obtain ⟨vt, d⟩ := s
      cases vt <;> first
        | exact ⟨_, rfl⟩
        | (simp [ScalarType.isKnown] at h)
  | .NullType valueType, h => by
      rw [WellFormed] at h
      obtain ⟨m, hm⟩ := calculateProperties_ok_of_WellFormed valueType h
      exact ⟨_, calculateProperties_NullType_of_ok valueType m hm⟩
  | .AnyType typedValue, _ => ⟨_, calculateProperties_AnyType typedValue⟩
  | .ArrayType (.DocumentType _) _, h => by simp [WellFormed] at h
  | .ArrayType (.MapType _) _, h => by simp [WellFormed] at h
  | .ArrayType (.MapItemType _ _) _, h => by simp [WellFormed] at h
  | .ArrayType (.ArrayType _ _) _, h => by simp [WellFormed] at h
  | .ArrayType (.ScalarType _) _, h => by simp [WellFormed] at h
  | .ArrayType (.NullType _) _, h => by simp [WellFormed] at h
  | .ArrayType (.AnyType _) _, h => by simp [WellFormed] at h
  | .ArrayType .other _, h => by simp [WellFormed] at h
  | .MapItemType _ _, h => by simp [WellFormed] at h
  | .ArrayItemType _, h => by simp [WellFormed] at h
  | .other, h => by simp [WellFormed] at h
theorem calculatePropertiesItems_ok_of_WellFormed :
    ∀ items : List (Value × SchemaVal), WellFormedItems items = true →
      ∃ P, calculatePropertiesItems items = .ok P
  | [], _ => ⟨[], calculatePropertiesItems_nil⟩
  | (key, valueType) :: rest, h => by
      rw [WellFormedItems, Bool.and_eq_true] at h
      obtain ⟨m, hm⟩ := calculateProperties_ok_of_WellFormed valueType h.1
      obtain ⟨P, hP⟩ := calculatePropertiesItems_ok_of_WellFormed rest h.2
      rw [calculatePropertiesItems_cons, hm, hP]
      exact ⟨_, rfl⟩
end

theorem AsDocument_of_ok (o : OpenAPIDocument) (m : yamlmeta.Map)
    (h : calculateProperties (.DocumentType o.docType.ValueType) = .ok m) :
    ∃ doc, AsDocument o = .ok doc := by
  unfold AsDocument
  rw [h]
  exact ⟨_, rfl⟩

theorem AsDocument_of_error (o : OpenAPIDocument) (e : Panic)
    (h : calculateProperties (.DocumentType o.docType.ValueType) = .error e) :
    AsDocument o = .error e := by
  unfold AsDocument
  rw [h]
  rfl

/-- C9: on a well-formed type model (documents, maps, arrays over one array
item, scalars of kind string, float, integer or boolean, nullable wrappers,
any-nodes) `calculateProperties` returns a mapping and `AsDocument` returns a
document; none of the three panics (unrecognized node type, unrecognized scalar
type, failed array-item assertion) is the outcome. -/
theorem well_formed_never_panics (t : SchemaVal) (h : WellFormed t = true) :
    (∃ m, calculateProperties t = .ok m) ∧
    (∀ e, calculateProperties t ≠ .error e) ∧
    (∃ doc, AsDocument (NewOpenAPIDocument ⟨t⟩) = .ok doc) ∧
    (∀ e, AsDocument (NewOpenAPIDocument ⟨t⟩) ≠ .error e) := by
  obtain ⟨m, hm⟩ := calculateProperties_ok_of_WellFormed t h
  have hd : calculateProperties
      (.DocumentType (NewOpenAPIDocument ⟨t⟩).docType.ValueType) = .ok m := by
    rw [calculateProperties_DocumentType]; exact hm
  obtain ⟨doc, hdoc⟩ := AsDocument_of_ok (NewOpenAPIDocument ⟨t⟩) m hd
  refine ⟨⟨m, hm⟩, ?_, ⟨doc, hdoc⟩, ?_⟩
  · intro e he
    rw [hm] at he
    exact Except.noConfusion he
  · intro e he
    rw [hdoc] at he
    exact Except.noConfusion he

theorem well_formed_never_panics_witness :
    WellFormed (.MapType [
      (.string "arr", .NullType (.ArrayType (.ArrayItemType (.ScalarType ⟨.float64 0, .float64 0⟩))
        (.array []))),
      (.string "free", .AnyType ⟨.map [(.string "k", .nil)]⟩)]) = true ∧
    (∃ doc, AsDocument (NewOpenAPIDocument ⟨.MapType [
      (.string "arr", .NullType (.ArrayType (.ArrayItemType (.ScalarType ⟨.float64 0, .float64 0⟩))
        (.array []))),
      (.string "free", .AnyType ⟨.map [(.string "k", .nil)]⟩)]⟩) = .ok doc) :=
  ⟨by decide, (well_formed_never_panics _ (by decide)).2.2.1⟩

theorem calculateProperties_error_of_Unrecognized (n : SchemaVal)
    (h : Unrecognized n = true) : ∃ e, calculateProperties n = .error e := by
  cases n with
  | MapItemType key valueType => exact ⟨.unrecognizedType, by rw [calculateProperties] <;> simp⟩
  | ArrayItemType valueType => exact ⟨.unrecognizedType, by rw [calculateProperties] <;> simp⟩
  | other => exact ⟨.unrecognizedType, by rw [calculateProperties] <;> simp⟩
  | ScalarType s =>
    rw [calculateProperties_ScalarType]
    obtain ⟨vt, d⟩ := s
    cases vt <;> first
      | exact ⟨.unrecognizedScalar, rfl⟩
      | (simp [Unrecognized, ScalarType.isKnown] at h)
  | DocumentType _ => simp [Unrecognized] at h
  | MapType _ => simp [Unrecognized] at h
  | ArrayType _ _ => simp [Unrecognized] at h
  | NullType _ => simp [Unrecognized] at h
  | AnyType _ => simp [Unrecognized] at h

theorem calculatePropertiesItems_error_of_mem (items : List (Value × SchemaVal))
    (key : Value) (valueType : SchemaVal) (hmem : (key, valueType) ∈ items)
    (h : ∃ e, calculateProperties valueType = .error e) :
    ∃ e, calculatePropertiesItems items = .error e := by
  induction items with
  | nil => simp at hmem
  | cons i rest ih =>
    obtain ⟨k, vt⟩ := i
    rw [calculatePropertiesItems_cons]
    cases hv : calculateProperties vt with
    | error e => exact ⟨e, rfl⟩
    | ok m =>
      rcases List.mem_cons.mp hmem with heq | hrest
      · obtain ⟨e, he⟩ := h
        injection heq with _ h2
        rw [h2, hv] at he
        exact Except.noConfusion he
      · obtain ⟨e, he⟩ := ih hrest
        rw [he]
        exact ⟨e, rfl⟩

theorem calculateProperties_error_of_Reaches (root n : SchemaVal) (hr : Reaches root n)
    (hu : Unrecognized n = true) : ∃ e, calculateProperties root = .error e := by
  induction hr with
  | root t => exact calculateProperties_error_of_Unrecognized t hu
  | document _ ih =>
    rw [calculateProperties_DocumentType]
    exact ih hu
  | mapItem hmem _ ih =>
    obtain ⟨e, he⟩ := calculatePropertiesItems_error_of_mem _ _ _ hmem (ih hu)
    rw [calculateProperties_MapType, he]
    exact ⟨e, rfl⟩
  | arrayItem _ ih =>
    obtain ⟨e, he⟩ := ih hu
    rw [calculateProperties_ArrayType, he]
    exact ⟨e, rfl⟩
  | null _ ih =>
    obtain ⟨e, he⟩ := ih hu
    rw [calculateProperties_NullType, he]
    exact ⟨e, rfl⟩

/-- C10: when the walk from the root document type reaches a node of a kind the
switch does not name, or a scalar whose underlying kind is not string, float,
integer or boolean, rendering the root panics and `AsDocument` returns no
document at all. -/
theorem unrecognized_node_aborts (o : OpenAPIDocument) (n : SchemaVal)
    (hr : Reaches (.DocumentType o.docType.ValueType) n) (hu : Unrecognized n = true) :
    (∃ e, calculateProperties (.DocumentType o.docType.ValueType) = .error e) ∧
    (∃ e, AsDocument o = .error e) ∧
    (∀ doc, AsDocument o ≠ .ok doc) := by
  obtain ⟨e, he⟩ := calculateProperties_error_of_Reaches _ n hr hu
  have ha := AsDocument_of_error o e he
  refine ⟨⟨e, he⟩, ⟨e, ha⟩, ?_⟩
  intro doc hdoc
  rw [ha] at hdoc
  exact Except.noConfusion hdoc

theorem unrecognized_node_aborts_witness :
    Reaches (.DocumentType (NewOpenAPIDocument ⟨.MapType [
        (.string "fine", .AnyType ⟨.nil⟩),
        (.string "bad", .NullType (.ScalarType ⟨.nil, .nil⟩))]⟩).docType.ValueType)
      (.ScalarType ⟨.nil, .nil⟩) ∧
    Unrecognized (.ScalarType ⟨.nil, .nil⟩) = true ∧
    (∀ doc, AsDocument (NewOpenAPIDocument ⟨.MapType [
        (.string "fine", .AnyType ⟨.nil⟩),
        (.string "bad", .NullType (.ScalarType ⟨.nil, .nil⟩))]⟩) ≠ .ok doc) :=
  ⟨.document (.mapItem (List.mem_cons_of_mem _ (List.mem_cons_self _ _)) (.null (.root _))),
   by decide,
   (unrecognized_node_aborts _ (.ScalarType ⟨.nil, .nil⟩)
      (.document (.mapItem (List.mem_cons_of_mem _ (List.mem_cons_self _ _)) (.null (.root _))))
      (by decide)).2.2⟩

/-! ## Any-nodes inside maps, arrays and documents -/

theorem calculateProperties_MapType_ok (items : List (Value × SchemaVal)) (m : yamlmeta.Map)
    (h : calculateProperties (.MapType items) = .ok m) :
    ∃ P, calculatePropertiesItems items = .ok P ∧
      m = ⟨[(.string "type", .string "object"),
            (.string "additionalProperties", .bool false),
            (.string "properties", .map P)]⟩ := by
  rw [calculateProperties_MapType] at h
  cases hp : calculatePropertiesItems items with
  | error e => rw [hp] at h; exact Except.noConfusion h
  | ok P =>
    rw [hp] at h
    injection h with h
    exact ⟨P, rfl, h.symm⟩

theorem calculatePropertiesItems_length (items : List (Value × SchemaVal))
    (P : List yamlmeta.MapItem) (h : calculatePropertiesItems items = .ok P) :
    P.length = items.length := by
  induction items generalizing P with
  | nil =>
    rw [calculatePropertiesItems_nil] at h
    injection h with h
    subst h
    rfl
  | cons i rest ih =>
    obtain ⟨key, valueType⟩ := i
    rw [calculatePropertiesItems_cons] at h
    cases hv : calculateProperties valueType with
    | error e => rw [hv] at h; exact Except.noConfusion h
    | ok v =>
      cases hr : calculatePropertiesItems rest with
      | error e => rw [hv, hr] at h; exact Except.noConfusion h
      | ok Q =>
        rw [hv, hr] at h
        injection h with h
        subst h
        simp [ih Q hr]

theorem calculatePropertiesItems_set (items : List (Value × SchemaVal)) (k : Nat)
    (key : Value) (valueType : SchemaVal) (d : Value) (P : List yamlmeta.MapItem)
    (hk : items[k]? = some (key, valueType))
    (h : calculatePropertiesItems items = .ok P) :
    calculatePropertiesItems (items.set k (key, .AnyType ⟨d⟩)) =
      .ok (P.set k (key, .map [(.string "default", d)])) := by
  induction items generalizing k P with
  | nil => simp at hk
  | cons i rest ih =>
    obtain ⟨key₀, valueType₀⟩ := i
    rw [calculatePropertiesItems_cons] at h
    cases hv : calculateProperties valueType₀ with
    | error e => rw [hv] at h; exact Except.noConfusion h
    | ok v =>
      cases hr : calculatePropertiesItems rest with
      | error e => rw [hv, hr] at h; exact Except.noConfusion h
      | ok Q =>
        rw [hv, hr] at h
        injection h with h
        subst h
        cases k with
        | zero =>
          simp only [List.getElem?_cons_zero, Option.some.injEq, Prod.mk.injEq] at hk
          obtain ⟨hk1, _⟩ := hk
          subst hk1
          rw [List.set_cons_zero, calculatePropertiesItems_cons, calculateProperties_AnyType, hr]
          rfl
        | succ k =>
          simp only [List.getElem?_cons_succ] at hk
          rw [List.set_cons_succ, calculatePropertiesItems_cons, hv, ih k Q hk hr]
          rfl

/-- C11: in a map that renders, replacing the value type of the item at index
`k` by an any-node with default `d` changes the rendering only at position `k`
of `properties`, where the entry becomes the item's key with the single-entry
mapping `default: d`; `type: object`, `additionalProperties: false` and every
other property entry stay as they were, in place. -/
theorem any_collapse_is_local (items : List (Value × SchemaVal)) (k : Nat)
    (key : Value) (valueType : SchemaVal) (d : Value) (m : yamlmeta.Map)
    (hk : items[k]? = some (key, valueType))
    (h : calculateProperties (.MapType items) = .ok m) :
    ∃ P : List yamlmeta.MapItem,
      m.Items = [(.string "type", .string "object"),
                 (.string "additionalProperties", .bool false),
                 (.string "properties", .map P)] ∧
      calculateProperties (.MapType (items.set k (key, .AnyType ⟨d⟩))) =
        .ok ⟨[(.string "type", .string "object"),
              (.string "additionalProperties", .bool false),
              (.string "properties", .map (P.set k (key, .map [(.string "default", d)])))]⟩ ∧
      (P.set k (key, .map [(.string "default", d)]))[k]? =
        some (key, .map [(.string "default", d)]) ∧
      (P.set k (key, .map [(.string "default", d)])).length = P.length ∧
      ∀ n : Nat, n ≠ k → (P.set k (key, .map [(.string "default", d)]))[n]? = P[n]? := by
  obtain ⟨P, hP, hm⟩ := calculateProperties_MapType_ok items m h
  have hlen := calculatePropertiesItems_length items P hP
  have hklt : k < P.length := by
    rw [hlen]
    by_contra hc
    rw [List.getElem?_eq_none (Nat.le_of_not_lt hc)] at hk
    exact Option.noConfusion hk
  refine ⟨P, by rw [hm], ?_, ?_, by simp, ?_⟩
  · rw [calculateProperties_MapType, calculatePropertiesItems_set items k key valueType d P hk hP]
    rfl
  · simp [hklt]
  · intro n hn
    simp [List.getElem?_set, Ne.symm hn]

theorem any_collapse_is_local_witness :
    ([((.string "a" : Value), SchemaVal.ScalarType ⟨.int 0, .int 0⟩),
      (.string "foo", .MapType [(.string "int_key", .ScalarType ⟨.int 0, .int 0⟩)])] :
        List (Value × SchemaVal))[1]? =
      some (.string "foo", .MapType [(.string "int_key", .ScalarType ⟨.int 0, .int 0⟩)]) ∧
    calculateProperties (.MapType
      ([((.string "a" : Value), SchemaVal.ScalarType ⟨.int 0, .int 0⟩),
        (.string "foo", .MapType [(.string "int_key", .ScalarType ⟨.int 0, .int 0⟩)])].set 1
          (.string "foo", .AnyType ⟨.map [(.string "int_key", .int 0)]⟩))) =
      .ok ⟨[(.string "type", .string "object"),
            (.string "additionalProperties", .bool false),
            (.string "properties", .map [
              (.string "a", .map [(.string "type", .string "integer"), (.string "default", .int 0)]),
              (.string "foo", .map [(.string "default", .map [(.string "int_key", .int 0)])])])]⟩ ∧
    ∃ P : List yamlmeta.MapItem,
      (⟨[(.string "type", .string "object"),
          (.string "additionalProperties", .bool false),
          (.string "properties", .map [
            (.string "a", .map [(.string "type", .string "integer"), (.string "default", .int 0)]),
            (.string "foo", .map [(.string "type", .string "object"),
              (.string "additionalProperties", .bool false),
              (.string "properties", .map [(.string "int_key",
                .map [(.string "type", .string "integer"),
                  (.string "default", .int 0)])])])])]⟩ : yamlmeta.Map).Items =
        [(.string "type", .string "object"),
         (.string "additionalProperties", .bool false),
         (.string "properties", .map P)] ∧
      calculateProperties (.MapType
        ([((.string "a" : Value), SchemaVal.ScalarType ⟨.int 0, .int 0⟩),
          (.string "foo", .MapType [(.string "int_key", .ScalarType ⟨.int 0, .int 0⟩)])].set 1
            (.string "foo", .AnyType ⟨.map [(.string "int_key", .int 0)]⟩))) =
        .ok ⟨[(.string "type", .string "object"),
              (.string "additionalProperties", .bool false),
              (.string "properties",
                .map (P.set 1 (.string "foo",
                  .map [(.string "default", .map [(.string "int_key", .int 0)])])))]⟩ ∧
      (P.set 1 (.string "foo",
          .map [(.string "default", .map [(.string "int_key", .int 0)])]))[1]? =
        some (.string "foo", .map [(.string "default", .map [(.string "int_key", .int 0)])]) ∧
      (P.set 1 (.string "foo",
          .map [(.string "default", .map [(.string "int_key", .int 0)])])).length = P.length ∧
      ∀ n : Nat, n ≠ 1 →
        (P.set 1 (.string "foo",
          .map [(.string "default", .map [(.string "int_key", .int 0)])]))[n]? = P[n]? :=
  ⟨rfl, by decide,
   any_collapse_is_local
     [(.string "a", .ScalarType ⟨.int 0, .int 0⟩),
      (.string "foo", .MapType [(.string "int_key", .ScalarType ⟨.int 0, .int 0⟩)])]
     1 (.string "foo") (.MapType [(.string "int_key", .ScalarType ⟨.int 0, .int 0⟩)])
     (.map [(.string "int_key", .int 0)]) _ rfl (by decide)⟩

/-- C12: an array with own default `D` whose element type is an any-node with
default `d` renders as exactly `type: array`, `items: [default: d]`,
`default: D`: the three keys in the usual order, `items` being the bare
single-key mapping. -/
theorem calculateProperties_ArrayType_of_AnyType (d D : Value) :
    calculateProperties (.ArrayType (.ArrayItemType (.AnyType ⟨d⟩)) D) =
      .ok ⟨[(.string "type", .string "array"),
            (.string "items", .map [(.string "default", d)]),
            (.string "default", D)]⟩ := by
  rw [calculateProperties_ArrayType, calculateProperties_AnyType]
  rfl

/-- C13: a document is transparent: rendering a document is rendering its value
type, with the same mapping or the same panic; and for a root document whose
value type is an any-node with default `d`, the `dataValues` entry `AsDocument`
produces is exactly the single-entry mapping `default: d`. -/
theorem DocumentType_is_transparent (t : SchemaVal) (d : Value) :
    calculateProperties (.DocumentType t) = calculateProperties t ∧
    AsDocument (NewOpenAPIDocument ⟨.AnyType ⟨d⟩⟩) = .ok ⟨.map [
      (.string "openapi", .string "3.0.0"),
      (.string "info", .map [
        (.string "version", .string "0.1.0"),
        (.string "title", .string "Schema for data values, generated by ytt")]),
      (.string "paths", .map []),
      (.string "components", .map [
        (.string "schemas", .map [
          (.string "dataValues", .map [(.string "default", d)])])])]⟩ := by
  refine ⟨calculateProperties_DocumentType t, ?_⟩
  unfold AsDocument
  rw [show (NewOpenAPIDocument ⟨.AnyType ⟨d⟩⟩).docType.ValueType = .AnyType ⟨d⟩ from rfl,
    calculateProperties_DocumentType, calculateProperties_AnyType]
  rfl

/-! ## Termination -/

theorem calculatePropertiesFuel_succ_ScalarType (fuel : Nat) (s : ScalarType) :
    calculatePropertiesFuel (fuel + 1) (.ScalarType s) = some (calculateProperties (.ScalarType s)) := by
  rw [calculateProperties_ScalarType, calculatePropertiesFuel]
  cases openAPITypeFor s with
  | error e => rfl
  | ok typeString =>
    simp only [Except.map]
    split <;> rfl

mutual
theorem calculatePropertiesFuel_of_depth :
    ∀ (t : SchemaVal) (fuel : Nat), depth t < fuel →
      calculatePropertiesFuel fuel t = some (calculateProperties t)
  | _, 0, h => absurd h (Nat.not_lt_zero _)
  | .DocumentType valueType, fuel + 1, h => by
      rw [depth] at h
      rw [calculatePropertiesFuel, calculateProperties_DocumentType]
      exact calculatePropertiesFuel_of_depth valueType fuel (by omega)
  | .MapType items, fuel + 1, h => by
      rw [depth] at h
      rw [calculatePropertiesFuel, calculateProperties_MapType]
      simp only [calculatePropertiesItemsWith_of_depth items fuel (by omega)]
      cases calculatePropertiesItems items <;> rfl
  | .ArrayType (.ArrayItemType valueType) defaultValue, fuel + 1, h => by
      rw [depth] at h
      rw [calculatePropertiesFuel, calculateProperties_ArrayType]
      simp only [calculatePropertiesFuel_of_depth valueType fuel (by omega)]
      cases calculateProperties valueType <;> rfl
  | .NullType valueType, fuel + 1, h => by
      rw [depth] at h
      rw [calculatePropertiesFuel, calculateProperties_NullType]
      simp only [calculatePropertiesFuel_of_depth valueType fuel (by omega)]
      cases calculateProperties valueType <;> rfl
  | .ScalarType s, fuel + 1, _ => calculatePropertiesFuel_succ_ScalarType fuel s
  | .AnyType typedValue, fuel + 1, _ => by
      rw [calculatePropertiesFuel, calculateProperties_AnyType]
  | .ArrayType (.DocumentType _) _, fuel + 1, _ => by
      rw [calculatePropertiesFuel, calculateProperties_ArrayType_of_not_item _ _ (by simp)]
      simp
  | .ArrayType (.MapType _) _, fuel + 1, _ => by
      rw [calculatePropertiesFuel, calculateProperties_ArrayType_of_not_item _ _ (by simp)]
      simp
  | .ArrayType (.MapItemType _ _) _, fuel + 1, _ => by
      rw [calculatePropertiesFuel, calculateProperties_ArrayType_of_not_item _ _ (by simp)]
      simp
  | .ArrayType (.ArrayType _ _) _, fuel + 1, _ => by
      rw [calculatePropertiesFuel, calculateProperties_ArrayType_of_not_item _ _ (by simp)]
      simp
  | .ArrayType (.ScalarType _) _, fuel + 1, _ => by
      rw [calculatePropertiesFuel, calculateProperties_ArrayType_of_not_item _ _ (by simp)]
      simp
  | .ArrayType (.NullType _) _, fuel + 1, _ => by
      rw [calculatePropertiesFuel, calculateProperties_ArrayType_of_not_item _ _ (by simp)]
      simp
  | .ArrayType (.AnyType _) _, fuel + 1, _ => by
      rw [calculatePropertiesFuel, calculateProperties_ArrayType_of_not_item _ _ (by simp)]
      simp
  | .ArrayType .other _, fuel + 1, _ => by
      rw [calculatePropertiesFuel, calculateProperties_ArrayType_of_not_item _ _ (by simp)]
      simp
  | .MapItemType _ _, fuel + 1, _ => by
      rw [calculatePropertiesFuel, calculateProperties] <;> simp
  | .ArrayItemType _, fuel + 1, _ => by
      rw [calculatePropertiesFuel, calculateProperties] <;> simp
  | .other, fuel + 1, _ => by
      rw [calculatePropertiesFuel, calculateProperties] <;> simp
theorem calculatePropertiesItemsWith_of_depth :
    ∀ (items : List (Value × SchemaVal)) (fuel : Nat), depthItems items ≤ fuel →
      calculatePropertiesItemsWith (calculatePropertiesFuel fuel) items =
        some (calculatePropertiesItems items)
  | [], _, _ => by
      rw [calculatePropertiesItemsWith, calculatePropertiesItems_nil]
  | (key, valueType) :: rest, fuel, h => by
      rw [depthItems] at h
      rw [calculatePropertiesItemsWith, calculatePropertiesItems_cons]
      simp only [calculatePropertiesFuel_of_depth valueType fuel (by omega),
        calculatePropertiesItemsWith_of_depth rest fuel (by omega)]
      cases calculateProperties valueType with
      | error e => rfl
      | ok v => cases calculatePropertiesItems rest <;> rfl
end

/-- C14: the walk terminates on every schema tree: run as the plain recursion of
the source with a bound on the depth of nested calls, it returns the outcome of
`calculateProperties` as soon as the bound exceeds the depth of the tree,
whatever the nesting and the number of map items; on an any-node and on a scalar
one call is enough, as the walk does not descend into them. -/
theorem calculateProperties_terminates (t : SchemaVal) (fuel : Nat) (h : depth t < fuel) :
    calculatePropertiesFuel fuel t = some (calculateProperties t) ∧
    (∀ a : AnyType,
      calculatePropertiesFuel 1 (.AnyType a) = some (calculateProperties (.AnyType a))) ∧
    (∀ s : ScalarType,
      calculatePropertiesFuel 1 (.ScalarType s) = some (calculateProperties (.ScalarType s))) :=
  ⟨calculatePropertiesFuel_of_depth t fuel h,
   fun a => calculatePropertiesFuel_of_depth (.AnyType a) 1 (by simp [depth]),
   fun s => calculatePropertiesFuel_succ_ScalarType 0 s⟩

theorem calculateProperties_terminates_witness :
    depth (.DocumentType (.MapType [
      (.string "a", .NullType (.ArrayType (.ArrayItemType (.ScalarType ⟨.string "", .nil⟩))
        (.array []))),
      (.string "b", .AnyType ⟨.map [(.string "k", .array [.int 1])]⟩)])) < 5 ∧
    calculatePropertiesFuel 5 (.DocumentType (.MapType [
      (.string "a", .NullType (.ArrayType (.ArrayItemType (.ScalarType ⟨.string "", .nil⟩))
        (.array []))),
      (.string "b", .AnyType ⟨.map [(.string "k", .array [.int 1])]⟩)])) =
    some (.ok ⟨[(.string "type", .string "object"),
      (.string "additionalProperties", .bool false),
      (.string "properties", .map [
        (.string "a", .map [(.string "type", .string "array"),
          (.string "items", .map [(.string "type", .string "string"), (.string "default", .nil)]),
          (.string "default", .array []),
          (.string "nullable", .bool true)]),
        (.string "b", .map [(.string "default", .map [(.string "k", .array [.int 1])])])])]⟩) :=
  ⟨by decide, (calculateProperties_terminates _ 5 (by decide)).1⟩

/-! ## The leading key -/

theorem calculateProperties_NullType_ok (valueType : SchemaVal) (m : yamlmeta.Map)
    (h : calculateProperties (.NullType valueType) = .ok m) :
    ∃ m₀, calculateProperties valueType = .ok m₀ ∧
      m = ⟨m₀.Items ++ [(.string "nullable", .bool true)]⟩ := by
  rw [calculateProperties_NullType] at h
  cases hv : calculateProperties valueType with
  | error e => rw [hv] at h; exact Except.noConfusion h
  | ok m₀ =>
    rw [hv] at h
    injection h with h
    exact ⟨m₀, rfl, h.symm⟩

theorem calculateProperties_ArrayType_ok (itemsType : SchemaVal) (defaultValue : Value)
    (m : yamlmeta.Map) (h : calculateProperties (.ArrayType itemsType defaultValue) = .ok m) :
    ∃ valueType m₀, itemsType = .ArrayItemType valueType ∧
      calculateProperties valueType = .ok m₀ ∧
      m = ⟨[(.string "type", .string "array"), (.string "items", .map m₀.Items),
            (.string "default", defaultValue)]⟩ := by
  cases itemsType with
  | ArrayItemType valueType =>
    rw [calculateProperties_ArrayType] at h
    cases hv : calculateProperties valueType with
    | error e => rw [hv] at h; exact Except.noConfusion h
    | ok m₀ =>
      rw [hv] at h
      injection h with h
      exact ⟨valueType, m₀, rfl, hv, h.symm⟩
  | _ =>
    rw [calculateProperties_ArrayType_of_not_item _ _ (by simp)] at h
    exact Except.noConfusion h

theorem calculateProperties_ScalarType_ok (s : ScalarType) (m : yamlmeta.Map)
    (h : calculateProperties (.ScalarType s) = .ok m) :
    ∃ typeString,
      m.Items = [(.string "type", .string typeString), (.string "default", s.defaultValue)] ∨
      m.Items = [(.string "type", .string typeString), (.string "default", s.defaultValue),
        (.string "format", .string "float")] := by
  rw [calculateProperties_ScalarType] at h
  cases ht : openAPITypeFor s with
  | error e => rw [ht] at h; exact Except.noConfusion h
  | ok typeString =>
    rw [ht] at h
    injection h with h
    subst h
    refine ⟨typeString, ?_⟩
    split
    · exact Or.inr rfl
    · exact Or.inl rfl

/-- The rendering of a node starts with `type` when the node under its
documents and nullable wrappers is a map, an array or a scalar, and is
`default` followed only by `nullable` entries when it is an any-node. -/
theorem calculateProperties_shape :
    ∀ (t : SchemaVal) (m : yamlmeta.Map), calculateProperties t = .ok m →
      ((underlying t).isTyped = true ∧
        ∃ T rest, m.Items = (.string "type", T) :: rest) ∨
      ((underlying t).isAnyType = true ∧
        ∃ d k, m.Items =
          (.string "default", d) :: List.replicate k (.string "nullable", .bool true))
  | .DocumentType valueType, m, h => by
      rw [calculateProperties_DocumentType] at h
      rw [underlying]
      exact calculateProperties_shape valueType m h
  | .NullType valueType, m, h => by
      obtain ⟨m₀, h₀, hm⟩ := calculateProperties_NullType_ok valueType m h
      rw [underlying]
      rcases calculateProperties_shape valueType m₀ h₀ with
        ⟨ht, T, rest, hr⟩ | ⟨ha, d, k, hr⟩
      · exact Or.inl ⟨ht, T, rest ++ [(.string "nullable", .bool true)], by rw [hm, hr]; rfl⟩
      · refine Or.inr ⟨ha, d, k + 1, ?_⟩
        rw [hm, hr, List.replicate_succ']
        rfl
  | .MapType items, m, h => by
      obtain ⟨P, _, hm⟩ := calculateProperties_MapType_ok items m h
      exact Or.inl ⟨by simp [underlying, SchemaVal.isTyped], _, _, by rw [hm]⟩
  | .ArrayType itemsType defaultValue, m, h => by
      obtain ⟨valueType, m₀, _, _, hm⟩ := calculateProperties_ArrayType_ok _ _ m h
      exact Or.inl ⟨by simp [underlying, SchemaVal.isTyped], _, _, by rw [hm]⟩
  | .ScalarType s, m, h => by
      obtain ⟨typeString, hm | hm⟩ := calculateProperties_ScalarType_ok s m h
      · exact Or.inl ⟨by simp [underlying, SchemaVal.isTyped], _, _, hm⟩
      · exact Or.inl ⟨by simp [underlying, SchemaVal.isTyped], _, _, hm⟩
  | .AnyType typedValue, m, h => by
      rw [calculateProperties_AnyType] at h
      injection h with h
      subst h
      exact Or.inr ⟨by simp [underlying, SchemaVal.isAnyType], typedValue.defaultValue, 0, rfl⟩
  | .MapItemType key valueType, m, h => by
      obtain ⟨e, he⟩ := calculateProperties_error_of_Unrecognized (.MapItemType key valueType) rfl
      rw [he] at h
      exact Except.noConfusion h
  | .ArrayItemType valueType, m, h => by
      obtain ⟨e, he⟩ := calculateProperties_error_of_Unrecognized (.ArrayItemType valueType) rfl
      rw [he] at h
      exact Except.noConfusion h
  | .other, m, h => by
      obtain ⟨e, he⟩ := calculateProperties_error_of_Unrecognized .other rfl
      rw [he] at h
      exact Except.noConfusion h

theorem isAnyType_eq_false_of_isTyped (t : SchemaVal) (h : t.isTyped = true) :
    t.isAnyType = false := by
  cases t <;> first | rfl | (simp [SchemaVal.isTyped] at h)

/-- C16: whenever `calculateProperties` succeeds the mapping is non-empty; its
first key is `type` when the node under all enclosing documents and nullable
wrappers is a map, an array or a scalar, and `default` when that node is an
any-node, one of the two being the case; it has a `type` key exactly when that
node is not an any-node; and a nullable wrapper around the node leaves the
first key as it is. -/
theorem leading_key (t : SchemaVal) (m : yamlmeta.Map) (h : calculateProperties t = .ok m) :
    m.Items ≠ [] ∧
    ((underlying t).isTyped = true → m.keys.head? = some (.string "type")) ∧
    ((underlying t).isAnyType = true → m.keys.head? = some (.string "default")) ∧
    ((underlying t).isTyped = true ∨ (underlying t).isAnyType = true) ∧
    (.string "type" ∈ m.keys ↔ (underlying t).isAnyType = false) ∧
    (∃ m', calculateProperties (.NullType t) = .ok m' ∧ m'.keys.head? = m.keys.head?) := by
  have hnull : ∀ (hne : m.Items ≠ []),
      ∃ m', calculateProperties (.NullType t) = .ok m' ∧ m'.keys.head? = m.keys.head? := by
    intro hne
    refine ⟨_, calculateProperties_NullType_of_ok t m h, ?_⟩
    cases hi : m.Items with
    | nil => exact absurd hi hne
    | cons i rest => simp [yamlmeta.Map.keys, hi]
  rcases calculateProperties_shape t m h with ⟨ht, T, rest, hm⟩ | ⟨ha, d, k, hm⟩
  · have hna := isAnyType_eq_false_of_isTyped _ ht
    have hne : m.Items ≠ [] := by rw [hm]; exact List.cons_ne_nil _ _
    refine ⟨hne, ?_, ?_, Or.inl ht, ?_, hnull hne⟩
    · intro _; simp [yamlmeta.Map.keys, hm]
    · intro ha; rw [hna] at ha; exact Bool.noConfusion ha
    · simp [yamlmeta.Map.keys, hm, hna]
  · have hne : m.Items ≠ [] := by rw [hm]; exact List.cons_ne_nil _ _
    refine ⟨hne, ?_, ?_, Or.inr ha, ?_, hnull hne⟩
    · intro ht
      rw [isAnyType_eq_false_of_isTyped _ ht] at ha
      exact Bool.noConfusion ha
    · intro _; simp [yamlmeta.Map.keys, hm]
    · simp [yamlmeta.Map.keys, hm, ha, List.map_replicate, List.mem_replicate]

theorem leading_key_witness :
    calculateProperties (.DocumentType (.NullType (.AnyType ⟨.int 7⟩))) =
      .ok ⟨[(.string "default", .int 7), (.string "nullable", .bool true)]⟩ ∧
    (underlying (.DocumentType (.NullType (.AnyType ⟨.int 7⟩)))).isAnyType = true ∧
    (⟨[(.string "default", .int 7), (.string "nullable", .bool true)]⟩ :
      yamlmeta.Map).keys.head? = some (.string "default") ∧
    (.string "type" ∈ (⟨[(.string "default", .int 7), (.string "nullable", .bool true)]⟩ :
        yamlmeta.Map).keys ↔
      (underlying (.DocumentType (.NullType (.AnyType ⟨.int 7⟩)))).isAnyType = false) :=
  ⟨by decide, by decide,
   (leading_key (.DocumentType (.NullType (.AnyType ⟨.int 7⟩)))
      ⟨[(.string "default", .int 7), (.string "nullable", .bool true)]⟩ (by decide)).2.2.1
      (by decide),
   (leading_key (.DocumentType (.NullType (.AnyType ⟨.int 7⟩)))
      ⟨[(.string "default", .int 7), (.string "nullable", .bool true)]⟩ (by decide)).2.2.2.2.1⟩

/-! ## No duplicate keys -/

theorem wrapsNull_of_nullable_mem :
    ∀ (t : SchemaVal) (m : yamlmeta.Map), calculateProperties t = .ok m →
      .string "nullable" ∈ m.keys → wrapsNull t = true
  | .DocumentType valueType, m, h, hn => by
      rw [calculateProperties_DocumentType] at h
      rw [wrapsNull]
      exact wrapsNull_of_nullable_mem valueType m h hn
  | .NullType _, _, _, _ => by rw [wrapsNull]
  | .MapType items, m, h, hn => by
      obtain ⟨P, _, hm⟩ := calculateProperties_MapType_ok items m h
      subst hm
      simp [yamlmeta.Map.keys] at hn
  | .ArrayType itemsType defaultValue, m, h, hn => by
      obtain ⟨valueType, m₀, _, _, hm⟩ := calculateProperties_ArrayType_ok _ _ m h
      subst hm
      simp [yamlmeta.Map.keys] at hn
  | .ScalarType s, m, h, hn => by
      obtain ⟨typeString, hm | hm⟩ := calculateProperties_ScalarType_ok s m h <;>
        simp [yamlmeta.Map.keys, hm] at hn
  | .AnyType typedValue, m, h, hn => by
      rw [calculateProperties_AnyType] at h
      injection h with h
      subst h
      simp [yamlmeta.Map.keys] at hn
  | .MapItemType key valueType, m, h, _ => by
      obtain ⟨e, he⟩ := calculateProperties_error_of_Unrecognized (.MapItemType key valueType) rfl
      rw [he] at h
      exact Except.noConfusion h
  | .ArrayItemType valueType, m, h, _ => by
      obtain ⟨e, he⟩ := calculateProperties_error_of_Unrecognized (.ArrayItemType valueType) rfl
      rw [he] at h
      exact Except.noConfusion h
  | .other, m, h, _ => by
      obtain ⟨e, he⟩ := calculateProperties_error_of_Unrecognized .other rfl
      rw [he] at h
      exact Except.noConfusion h

theorem calculatePropertiesItems_keys (items : List (Value × SchemaVal))
    (P : List yamlmeta.MapItem) (h : calculatePropertiesItems items = .ok P) :
    P.map Prod.fst = items.map Prod.fst := by
  induction items generalizing P with
  | nil =>
    rw [calculatePropertiesItems_nil] at h
    injection h with h
    subst h
    rfl
  | cons i rest ih =>
    obtain ⟨key, valueType⟩ := i
    rw [calculatePropertiesItems_cons] at h
    cases hv : calculateProperties valueType with
    | error e => rw [hv] at h; exact Except.noConfusion h
    | ok v =>
      cases hr : calculatePropertiesItems rest with
      | error e => rw [hv, hr] at h; exact Except.noConfusion h
      | ok Q =>
        rw [hv, hr] at h
        injection h with h
        subst h
        simp [ih Q hr]

theorem distinctEntryKeys_append (a b : List (Value × Value)) :
    distinctEntryKeys (a ++ b) = (distinctEntryKeys a && distinctEntryKeys b) := by
  induction a with
  | nil => simp [distinctEntryKeys]
  | cons i rest ih =>
    obtain ⟨key, value⟩ := i
    simp only [List.cons_append, distinctEntryKeys, List.append_eq, ih, Bool.and_assoc]

theorem distinctSchemaKeys_map (items : List (Value × Value)) :
    distinctSchemaKeys (.map items) = true ↔
      (items.map Prod.fst).Nodup ∧ distinctEntryKeys items = true := by
  simp [distinctSchemaKeys]

mutual
theorem distinctSchemaKeys_of_DistinctKeys :
    ∀ (t : SchemaVal) (m : yamlmeta.Map), DistinctKeys t = true →
      calculateProperties t = .ok m → distinctSchemaKeys (.map m.Items) = true
  | .DocumentType valueType, m, hd, h => by
      rw [DistinctKeys] at hd
      rw [calculateProperties_DocumentType] at h
      exact distinctSchemaKeys_of_DistinctKeys valueType m hd h
  | .MapType items, m, hd, h => by
      obtain ⟨P, hP, hm⟩ := calculateProperties_MapType_ok items m h
      subst hm
      rw [DistinctKeys, Bool.and_eq_true, decide_eq_true_eq] at hd
      have hk := calculatePropertiesItems_keys items P hP
      have hv := distinctValueKeys_of_DistinctKeysItems items P hd.2 hP
      have hn : (P.map Prod.fst).Nodup := by rw [hk]; exact hd.1
      simp [distinctSchemaKeys, distinctEntryKeys, distinctPropertyKeys, hn, hv]
  | .ArrayType (.ArrayItemType valueType) defaultValue, m, hd, h => by
      obtain ⟨vt, m₀, hvt, h₀, hm⟩ := calculateProperties_ArrayType_ok _ _ m h
      injection hvt with hvt
      subst hvt
      subst hm
      rw [DistinctKeys, DistinctKeys] at hd
      have ih := distinctSchemaKeys_of_DistinctKeys valueType m₀ hd h₀
      simp [distinctSchemaKeys_map, distinctEntryKeys] at ih ⊢
      exact ih
  | .NullType valueType, m, hd, h => by
      obtain ⟨m₀, h₀, hm⟩ := calculateProperties_NullType_ok valueType m h
      subst hm
      rw [DistinctKeys, Bool.and_eq_true, Bool.not_eq_true'] at hd
      have ih := distinctSchemaKeys_of_DistinctKeys valueType m₀ hd.2 h₀
      have hnot : .string "nullable" ∉ m₀.keys := by
        intro hn
        have := wrapsNull_of_nullable_mem valueType m₀ h₀ hn
        rw [hd.1] at this
        exact Bool.noConfusion this
      rw [distinctSchemaKeys_map] at ih ⊢
      refine ⟨?_, ?_⟩
      · rw [List.map_append]
        refine List.Nodup.append ih.1 (by simp) ?_
        intro k hk hk2
        simp only [List.map_cons, List.map_nil, List.mem_singleton] at hk2
        subst hk2
        exact hnot hk
      · rw [distinctEntryKeys_append, ih.2]
        simp [distinctEntryKeys]
  | .ScalarType s, m, _, h => by
      obtain ⟨typeString, hm | hm⟩ := calculateProperties_ScalarType_ok s m h <;>
        simp [distinctSchemaKeys_map, distinctEntryKeys, hm]
  | .AnyType typedValue, m, _, h => by
      rw [calculateProperties_AnyType] at h
      injection h with h
      subst h
      simp [distinctSchemaKeys_map, distinctEntryKeys]
  | .ArrayType (.DocumentType _) _, m, _, h => by
      rw [calculateProperties_ArrayType_of_not_item _ _ (by simp)] at h
      exact Except.noConfusion h
  | .ArrayType (.MapType _) _, m, _, h => by
      rw [calculateProperties_ArrayType_of_not_item _ _ (by simp)] at h
      exact Except.noConfusion h
  | .ArrayType (.MapItemType _ _) _, m, _, h => by
      rw [calculateProperties_ArrayType_of_not_item _ _ (by simp)] at h
      exact Except.noConfusion h
  | .ArrayType (.ArrayType _ _) _, m, _, h => by
      rw [calculateProperties_ArrayType_of_not_item _ _ (by simp)] at h
      exact Except.noConfusion h
  | .ArrayType (.ScalarType _) _, m, _, h => by
      rw [calculateProperties_ArrayType_of_not_item _ _ (by simp)] at h
      exact Except.noConfusion h
  | .ArrayType (.NullType _) _, m, _, h => by
      rw [calculateProperties_ArrayType_of_not_item _ _ (by simp)] at h
      exact Except.noConfusion h
  | .ArrayType (.AnyType _) _, m, _, h => by
      rw [calculateProperties_ArrayType_of_not_item _ _ (by simp)] at h
      exact Except.noConfusion h
  | .ArrayType .other _, m, _, h => by
      rw [calculateProperties_ArrayType_of_not_item _ _ (by simp)] at h
      exact Except.noConfusion h
  | .MapItemType key valueType, m, _, h => by
      obtain ⟨e, he⟩ := calculateProperties_error_of_Unrecognized (.MapItemType key valueType) rfl
      rw [he] at h
      exact Except.noConfusion h
  | .ArrayItemType valueType, m, _, h => by
      obtain ⟨e, he⟩ := calculateProperties_error_of_Unrecognized (.ArrayItemType valueType) rfl
      rw [he] at h
      exact Except.noConfusion h
  | .other, m, _, h => by
      obtain ⟨e, he⟩ := calculateProperties_error_of_Unrecognized .other rfl
      rw [he] at h
      exact Except.noConfusion h
theorem distinctValueKeys_of_DistinctKeysItems :
    ∀ (items : List (Value × SchemaVal)) (P : List yamlmeta.MapItem),
      DistinctKeysItems items = true → calculatePropertiesItems items = .ok P →
        distinctValueKeys P = true
  | [], P, _, h => by
      rw [calculatePropertiesItems_nil] at h
      injection h with h
      subst h
      rw [distinctValueKeys]
  | (key, valueType) :: rest, P, hd, h => by
      rw [DistinctKeysItems, Bool.and_eq_true] at hd
      rw [calculatePropertiesItems_cons] at h
      cases hv : calculateProperties valueType with
      | error e => rw [hv] at h; exact Except.noConfusion h
      | ok v =>
        cases hr : calculatePropertiesItems rest with
        | error e => rw [hv, hr] at h; exact Except.noConfusion h
        | ok Q =>
          rw [hv, hr] at h
          injection h with h
          subst h
          have h1 := distinctSchemaKeys_of_DistinctKeys valueType v hd.1 hv
          have h2 := distinctValueKeys_of_DistinctKeysItems rest Q hd.2 hr
          rw [distinctValueKeys, Bool.and_eq_true]
          exact ⟨h1, h2⟩
end

/-- Without the precondition on nested nullable wrappers the key `nullable` is
appended once per wrapper and occurs twice. -/
theorem nullable_twice_of_NullType_NullType :
    calculateProperties (.NullType (.NullType (.AnyType ⟨.nil⟩))) =
      .ok ⟨[(.string "default", .nil), (.string "nullable", .bool true),
        (.string "nullable", .bool true)]⟩ ∧
    ¬ (⟨[(.string "default", .nil), (.string "nullable", .bool true),
        (.string "nullable", .bool true)]⟩ : yamlmeta.Map).keys.Nodup := by
  decide

/-- C15: on a well-formed schema tree in which the item keys of every map are
pairwise distinct and no nullable wrapper wraps a nullable wrapper, directly or
through documents, `calculateProperties` returns a mapping whose keys are
pairwise distinct, and so are the keys of every schema mapping inside it: every
`properties` mapping, every property value and every `items` value, at every
depth. -/
theorem no_duplicate_keys (t : SchemaVal) (hw : WellFormed t = true)
    (hd : DistinctKeys t = true) :
    ∃ m, calculateProperties t = .ok m ∧
      m.keys.Nodup ∧
      distinctSchemaKeys (.map m.Items) = true := by
  obtain ⟨m, hm⟩ := calculateProperties_ok_of_WellFormed t hw
  have h := distinctSchemaKeys_of_DistinctKeys t m hd hm
  exact ⟨m, hm, ((distinctSchemaKeys_map m.Items).mp h).1, h⟩

theorem no_duplicate_keys_witness :
    WellFormed (.DocumentType (.MapType [
      (.string "a", .NullType (.ScalarType ⟨.float64 0, .nil⟩)),
      (.string "b", .ArrayType (.ArrayItemType (.MapType [(.string "a", .AnyType ⟨.nil⟩)]))
        (.array []))])) = true ∧
    DistinctKeys (.DocumentType (.MapType [
      (.string "a", .NullType (.ScalarType ⟨.float64 0, .nil⟩)),
      (.string "b", .ArrayType (.ArrayItemType (.MapType [(.string "a", .AnyType ⟨.nil⟩)]))
        (.array []))])) = true ∧
    ∃ m, calculateProperties (.DocumentType (.MapType [
      (.string "a", .NullType (.ScalarType ⟨.float64 0, .nil⟩)),
      (.string "b", .ArrayType (.ArrayItemType (.MapType [(.string "a", .AnyType ⟨.nil⟩)]))
        (.array []))])) = .ok m ∧
      m.keys.Nodup ∧
      distinctSchemaKeys (.map m.Items) = true :=
  ⟨by decide, by decide, no_duplicate_keys _ (by decide) (by decide)⟩

end schema
